import Mathlib

/-!
# Verification of `ai-screenshot-namer` (`src/ai_screenshot_namer/main.py`)

Shallow embedding of the pure/deterministic core of the tool:

* `_calc_max_image_size` — the image-size capping formula (§ image resizer);
* `_encode_image` — the size of the payload actually submitted to the remote
  backend (modelled as the dimensions of the in-memory image that gets saved);
* `_extract_date_from_filename` — the regex scan over the filename stem plus
  date parsing (the `dateparser` library call is modelled from the spec);
* the post-processing step of `suggest_image_name` (strip non-word/space
  characters, replace spaces with underscores);
* `sanitize_filename` — strip, replace newlines/carriage returns, truncate;
* the per-file loop of `cli` — date prefix, stem composition, optional rename.

Strings are modelled as Lean `String`s / `List Char`; the character classes
`\w`, `\s` and `str.strip()` are modelled on their ASCII fragment (all concrete
inputs appearing below are ASCII).  Machine integers do not occur: Python ints
are unbounded, and the float expression `int(a / b * c)` in the resize formula
is modelled as natural floor division `a * c / b` (exact rational scaling,
truncated), which agrees with the float computation on all magnitudes involved.
-/

/-- Python whitespace (`\s`, `str.strip()`), ASCII fragment. -/
def pySpace (c : Char) : Bool :=
  c = ' ' || c = '\t' || c = '\n' || c = '\r' || c = '\x0b' || c = '\x0c'

/-- Python word character (`\w`), ASCII fragment: alphanumeric or underscore. -/
def pyWord (c : Char) : Bool :=
  c.isAlphanum || c = '_'

/-- Drop trailing characters satisfying `p` (right-hand part of `str.strip()`). -/
def rdropWhile (p : Char → Bool) (l : List Char) : List Char :=
  (l.reverse.dropWhile p).reverse

/-- Python `str.strip()` (no argument): drop leading and trailing whitespace. -/
def pyStrip (l : List Char) : List Char :=
  rdropWhile pySpace (l.dropWhile pySpace)

/-- `filename.replace("\n", "_").replace("\r", "_")` from `sanitize_filename`. -/
def pyReplaceNlCr (l : List Char) : List Char :=
  l.map fun c => if c = '\n' || c = '\r' then '_' else c

/-- `sanitize_filename(filename, max_length)` (main.py lines 196–200):
strip whitespace, replace newline/carriage-return with `_`, truncate
(`filename[:max_length]`, counting characters). -/
def sanitize_filename (filename : String) (max_length : ℕ) : String :=
  ⟨(pyReplaceNlCr (pyStrip filename.data)).take max_length⟩

/-- The post-processing applied to the backend draft in `suggest_image_name`
(main.py line 191): `re.sub(r"[^\w\s]", "", draft).replace(" ", "_")` —
keep only word/whitespace characters, then map each space to an underscore. -/
def postProcess (draft : String) : String :=
  ⟨(draft.data.filter fun c => pyWord c || pySpace c).map
    fun c => if c = ' ' then '_' else c⟩

/-- `suggest_image_name`, abstracted over the backend: the argument is the
backend's message content (`None` modelled as `none`); the function applies
the post-processing of main.py lines 190–193 when content is present. -/
def suggest_image_name (draft : Option String) : Option String :=
  draft.map postProcess

/-- Core of `_calc_max_image_size` (main.py lines 58–70) expressed on the
(long-slot, short-slot) values selected by `long_idx, short_idx`:
if the long slot exceeds 2000, rescale the short slot from the original ratio
and clamp the long slot to 2000; then, if the (possibly updated) short slot
exceeds 768, rescale the long slot as `int(768 / size[short_idx] * new_size[long_idx])`
(dividing by the ORIGINAL short value) and clamp the short slot to 768.
`int(a / b * c)` on Python floats is modelled as `a * c / b` in ℕ. -/
def calcCore (long short : ℕ) : ℕ × ℕ :=
  let step1 : ℕ × ℕ :=
    if long > 2000 then (2000, 2000 * short / long) else (long, short)
  if step1.2 > 768 then (768 * step1.1 / short, 768) else step1

/-- `_calc_max_image_size(size)` (main.py lines 58–70).  `long_idx, short_idx =
(0, 1) if size[0] > size[1] else (1, 0)`; the clamped values are written back
into their original slots. -/
def _calc_max_image_size (size : ℕ × ℕ) : ℕ × ℕ :=
  if size.1 > size.2 then
    calcCore size.1 size.2
  else
    ((calcCore size.2 size.1).2, (calcCore size.2 size.1).1)

/-- Dimensions of the image payload that `_encode_image` (main.py lines 75–92)
actually saves to WEBP and base64-encodes.  The source computes
`new_size = _calc_max_image_size(pillow_image.size)` and then evaluates
`pillow_image.resize(new_size)` WITHOUT assigning the result (Pillow's
`resize` returns a new image), so the image that is subsequently saved still
has its original size. -/
def _encode_image_payload_size (size : ℕ × ℕ) : ℕ × ℕ :=
  let _new_size := _calc_max_image_size size
  size

/-! ## Date extraction -/

/-- A calendar date as carried by the Python `datetime` object. -/
structure PyDate where
  year : ℕ
  month : ℕ
  day : ℕ
deriving DecidableEq, Repr

/-- Separator class (hyphen or forward slash) of the date regex. -/
def isDateSep (c : Char) : Bool :=
  c = '-' || c = '/'

/-- Match a fixed sequence of character classes at the head of `l`
(one predicate per character, in order), returning the matched characters.
This is how each alternative of the regex on main.py line 116 matches at a
given position: every alternative is a fixed-length sequence of classes. -/
def matchShape (ps : List (Char → Bool)) (l : List Char) : Option (List Char) :=
  if ps.length ≤ l.length && (ps.zip l).all fun pc => pc.1 pc.2 then
    some (l.take ps.length)
  else
    none

/-- First regex alternative `\d 4, sep, \d 2, sep, \d 2`. -/
def dateAlt1 : List Char → Option (List Char) :=
  matchShape [Char.isDigit, Char.isDigit, Char.isDigit, Char.isDigit, isDateSep,
    Char.isDigit, Char.isDigit, isDateSep, Char.isDigit, Char.isDigit]

/-- Second regex alternative `\d 2, sep, \d 2, sep, \d 4`. -/
def dateAlt2 : List Char → Option (List Char) :=
  matchShape [Char.isDigit, Char.isDigit, isDateSep, Char.isDigit, Char.isDigit,
    isDateSep, Char.isDigit, Char.isDigit, Char.isDigit, Char.isDigit]

/-- Third regex alternative `\d{4}\d{2}\d{2}` (eight digits). -/
def dateAlt3 : List Char → Option (List Char) :=
  matchShape [Char.isDigit, Char.isDigit, Char.isDigit, Char.isDigit,
    Char.isDigit, Char.isDigit, Char.isDigit, Char.isDigit]

/-- Fourth regex alternative `\d{2}\d{2}\d{4}` (also eight digits, kept as a
separate alternative to mirror the source regex). -/
def dateAlt4 : List Char → Option (List Char) :=
  matchShape [Char.isDigit, Char.isDigit, Char.isDigit, Char.isDigit,
    Char.isDigit, Char.isDigit, Char.isDigit, Char.isDigit]

/-- Try the four alternatives of the regex at the current position, in the
order they appear in the pattern (Python alternation semantics). -/
def matchDateAlts (l : List Char) : Option (List Char) :=
  match dateAlt1 l with
  | some m => some m
  | none =>
    match dateAlt2 l with
    | some m => some m
    | none =>
      match dateAlt3 l with
      | some m => some m
      | none => dateAlt4 l

/-- `re.search` over the compiled pattern: scan positions left to right and
return the first (leftmost) match. -/
def regexSearchDate : List Char → Option (List Char)
  | [] => none
  | l@(_ :: t) =>
    match matchDateAlts l with
    | some m => some m
    | none => regexSearchDate t

/-- Numeric value of a decimal digit character. -/
def digitVal (c : Char) : ℕ :=
  c.toNat - 48

/-- Two-digit numeric value. -/
def val2 (a b : Char) : ℕ :=
  10 * digitVal a + digitVal b

/-- Four-digit numeric value. -/
def val4 (a b c d : Char) : ℕ :=
  1000 * digitVal a + 100 * digitVal b + 10 * digitVal c + digitVal d

/-- Gregorian leap year. -/
def isLeapYear (y : ℕ) : Bool :=
  y % 4 = 0 && (y % 100 ≠ 0 || y % 400 = 0)

/-- Days in a month (Gregorian). -/
def daysInMonth (y m : ℕ) : ℕ :=
  if m = 2 then (if isLeapYear y then 29 else 28)
  else if m = 4 || m = 6 || m = 9 || m = 11 then 30
  else 31

/-- Build a date when the fields form a valid Python `datetime` date
(`datetime.MINYEAR = 1`, `datetime.MAXYEAR = 9999`, real calendar day). -/
def mkValidDate (y m d : ℕ) : Option PyDate :=
  if 1 ≤ y ∧ y ≤ 9999 ∧ 1 ≤ m ∧ m ≤ 12 ∧ 1 ≤ d ∧ d ≤ daysInMonth y m then
    some ⟨y, m, d⟩
  else
    none

/-- Modelled from the spec: `dateparser.parse` is an external library (not in
this repository); per the spec it performs locale-flexible natural-date
parsing of the matched substring, reading the four matched shapes as
`YYYY?MM?DD` (separators at positions 4 and 7), `DD?MM?YYYY` (separators at
positions 2 and 5), `YYYYMMDD`, or `DDMMYYYY`, and failing (returning absent)
when the fields do not form a valid calendar date. -/
def dateparse (m : List Char) : Option PyDate :=
  match m with
  | [a, b, c, d, e, f, g, h, i, j] =>
    if isDateSep e && isDateSep h then
      mkValidDate (val4 a b c d) (val2 f g) (val2 i j)
    else if isDateSep c && isDateSep f then
      mkValidDate (val4 g h i j) (val2 d e) (val2 a b)
    else
      none
  | [a, b, c, d, e, f, g, h] =>
    match mkValidDate (val4 a b c d) (val2 e f) (val2 g h) with
    | some dt => some dt
    | none => mkValidDate (val4 e f g h) (val2 c d) (val2 a b)
  | _ => none

/-- `_extract_date_from_filename(filename)` (main.py lines 114–127): search the
stem for the first substring matching the date regex; parse it when found,
return `None` when there is no match or parsing fails. -/
def _extract_date_from_filename (filename : String) : Option PyDate :=
  (regexSearchDate filename.data).bind dateparse

/-! ## CLI composition (main.py lines 219–238) -/

/-- `FILENAME_MAX_CHARACTERS = 64` (main.py line 40). -/
def FILENAME_MAX_CHARACTERS : ℕ := 64

/-- Two-digit zero-padded decimal rendering (`strftime` `%m` / `%d`;
faithful for values below 100, which is all the extractor can produce). -/
def pad2 (n : ℕ) : List Char :=
  [Nat.digitChar (n / 10 % 10), Nat.digitChar (n % 10)]

/-- Four-digit zero-padded decimal rendering (`strftime` `%Y`;
faithful for values below 10000, which is all the extractor can produce). -/
def pad4 (n : ℕ) : List Char :=
  [Nat.digitChar (n / 1000 % 10), Nat.digitChar (n / 100 % 10),
    Nat.digitChar (n / 10 % 10), Nat.digitChar (n % 10)]

/-- `date_str` of the cli loop (main.py line 231): empty when no date was
extracted, else `date.strftime("%Y-%m-%d")` followed by the separator `-`. -/
def dateStrOf : Option PyDate → String
  | none => ""
  | some dt => ⟨pad4 dt.year ++ '-' :: pad2 dt.month ++ '-' :: pad2 dt.day ++ ['-']⟩

/-- `new_name` of the cli loop (main.py line 234): the date prefix followed by
the suggestion sanitized with the max-length budget reduced by the prefix
length: `f"{date_str}{sanitize_filename(suggestion, FILENAME_MAX_CHARACTERS - len(date_str))}"`. -/
def finalStem (date : Option PyDate) (suggestion : String) : String :=
  dateStrOf date ++
    sanitize_filename suggestion (FILENAME_MAX_CHARACTERS - (dateStrOf date).length)

/-- `new_path` (main.py line 235): `screenshot.with_name(new_name + screenshot.suffix)` —
the new file name, keeping the original extension. -/
def finalName (date : Option PyDate) (suggestion : String) (suffix : String) : String :=
  finalStem date suggestion ++ suffix

/-- One input screenshot of the cli loop, abstracted over the backends:
its stem, its extension (Python `Path.suffix`), and the backend's message
content for it (`none` models a `None` content). -/
structure Shot where
  stem : String
  suffix : String
  draft : Option String
deriving Repr

/-- Python truthiness of the walrus test `if suggestion := suggest_image_name(...)`:
a string is truthy iff it is non-empty; `None` is falsy. -/
def truthySuggestion : Option String → Bool
  | none => false
  | some s => !(s == "")

/-- The renames performed by the cli loop (main.py lines 227–238) on a list of
screenshots, as `(old name, new name)` pairs: for each screenshot the date is
extracted from its stem, a suggestion is produced and post-processed, and a
rename happens only when the suggestion is truthy AND `--do-rename` was given
(otherwise the proposed pair is only printed). -/
def cliRenames (do_rename : Bool) : List Shot → List (String × String)
  | [] => []
  | sh :: rest =>
    match suggest_image_name sh.draft with
    | none => cliRenames do_rename rest
    | some s =>
      if s = "" then
        cliRenames do_rename rest
      else if do_rename then
        (sh.stem ++ sh.suffix,
          finalName (_extract_date_from_filename sh.stem) s sh.suffix) ::
          cliRenames do_rename rest
      else
        cliRenames do_rename rest

/-- `really_use_openai = use_openai or os.getenv("AISN_OPENAI_MODEL")`
(main.py line 225): the `--use-openai` flag, or Python truthiness of the
environment variable (`None` when unset; the empty string is falsy). -/
def really_use_openai (use_openai : Bool) (aisn_openai_model : Option String) : Bool :=
  use_openai ||
    (match aisn_openai_model with
      | none => false
      | some s => !(s == ""))

/-! ## Helper lemmas: stripping, replacing, sanitizing -/

lemma dropWhile_head_false {p : Char → Bool} :
    ∀ {l : List Char} {a : Char} {t : List Char},
      l.dropWhile p = a :: t → p a = false := by
  intro l
  induction l with
  | nil => intro a t h; simp [List.dropWhile] at h
  | cons b l' ih =>
    intro a t h
    by_cases hb : p b = true
    · rw [List.dropWhile_cons, if_pos hb] at h
      exact ih h
    · rw [List.dropWhile_cons, if_neg hb] at h
      cases h
      simpa using hb

lemma dropWhile_eq_self_of_head {p : Char → Bool} {l : List Char}
    (h : ∀ a, l.head? = some a → p a = false) : l.dropWhile p = l := by
  cases l with
  | nil => rfl
  | cons a t =>
    have ha := h a rfl
    rw [List.dropWhile_cons, if_neg (by simp [ha])]

lemma rdropWhile_isPrefix (p : Char → Bool) (l : List Char) :
    rdropWhile p l <+: l := by
  have h1 : l.reverse.dropWhile p <:+ l.reverse := List.dropWhile_suffix p
  have h2 := List.reverse_prefix.2 h1
  simpa [rdropWhile] using h2

lemma rdropWhile_eq_self_of_getLast {p : Char → Bool} {l : List Char}
    (h : ∀ a, l.getLast? = some a → p a = false) : rdropWhile p l = l := by
  have hh : ∀ a, l.reverse.head? = some a → p a = false := by
    intro a ha
    exact h a (by simpa [List.head?_reverse] using ha)
  simp [rdropWhile, dropWhile_eq_self_of_head hh]

lemma mem_rdropWhile {p : Char → Bool} {l : List Char} {c : Char}
    (h : c ∈ rdropWhile p l) : c ∈ l := by
  have hs : c ∈ l.reverse.dropWhile p := by
    simpa [rdropWhile] using h
  have := (List.dropWhile_sublist _).subset hs
  simpa using this

lemma mem_pyStrip {l : List Char} {c : Char} (h : c ∈ pyStrip l) : c ∈ l := by
  have h1 : c ∈ l.dropWhile pySpace := mem_rdropWhile h
  exact (List.dropWhile_sublist _).subset h1

lemma pyStrip_head_false {l : List Char} {a : Char} {t : List Char}
    (h : pyStrip l = a :: t) : pySpace a = false := by
  obtain ⟨r, hr⟩ := rdropWhile_isPrefix pySpace (l.dropWhile pySpace)
  rw [pyStrip] at h
  rw [h] at hr
  exact dropWhile_head_false (by simpa using hr.symm)

lemma pyStrip_eq_self {l : List Char}
    (hh : ∀ a, l.head? = some a → pySpace a = false)
    (hl : ∀ a, l.getLast? = some a → pySpace a = false) : pyStrip l = l := by
  rw [pyStrip, dropWhile_eq_self_of_head hh, rdropWhile_eq_self_of_getLast hl]

lemma map_eq_self_of_forall {f : Char → Char} :
    ∀ {l : List Char}, (∀ c ∈ l, f c = c) → l.map f = l := by
  intro l
  induction l with
  | nil => intro _; rfl
  | cons a t ih =>
    intro h
    simp only [List.map_cons, h a (by simp), List.cons.injEq, true_and]
    exact ih fun c hc => h c (by simp [hc])

lemma pyReplaceNlCr_not_space {c : Char} (h : pySpace c = false) :
    pySpace (if c = '\n' || c = '\r' then '_' else c) = false := by
  by_cases h1 : c = '\n' || c = '\r'
  · simp [h1]; decide
  · simpa [h1] using h

lemma mem_sanitize {s : String} {m : ℕ} {c : Char}
    (h : c ∈ (sanitize_filename s m).data) :
    c = '_' ∨ (c ∈ s.data ∧ c ≠ '\n' ∧ c ≠ '\r') := by
  have h1 : c ∈ pyReplaceNlCr (pyStrip s.data) :=
    List.take_subset _ _ h
  obtain ⟨c', hc', hfc⟩ := List.mem_map.1 h1
  by_cases hnl : c' = '\n' || c' = '\r'
  · left
    rw [← hfc]
    simp [hnl]
  · right
    have hcc : c = c' := by rw [← hfc]; simp [hnl]
    subst hcc
    refine ⟨mem_pyStrip hc', ?_, ?_⟩ <;>
      · intro he
        subst he
        simp at hnl

lemma sanitize_length_le (s : String) (m : ℕ) :
    (sanitize_filename s m).length ≤ m := by
  have : (sanitize_filename s m).length =
      ((pyReplaceNlCr (pyStrip s.data)).take m).length := rfl
  rw [this, List.length_take]
  exact min_le_left _ _

lemma sanitize_no_nl_cr (s : String) (m : ℕ) :
    '\n' ∉ (sanitize_filename s m).data ∧ '\r' ∉ (sanitize_filename s m).data := by
  constructor <;>
    · intro h
      rcases mem_sanitize h with h1 | ⟨_, h2, h3⟩
      · simp at h1
      · simp at h2 h3

lemma mem_postProcess {s : String} {c : Char} (h : c ∈ (postProcess s).data) :
    (pyWord c || pySpace c) = true ∧ c ≠ ' ' := by
  obtain ⟨c', hc', hfc⟩ := List.mem_map.1 h
  have hc'p : (pyWord c' || pySpace c') = true := (List.mem_filter.1 hc').2
  by_cases hsp : c' = ' '
  · subst hsp
    rw [← hfc]
    constructor
    · simp; left; decide
    · simp
  · have hcc : c = c' := by rw [← hfc]; simp [hsp]
    subst hcc
    exact ⟨hc'p, hsp⟩

lemma head?_take_succ (l : List Char) (n : ℕ) :
    (l.take (n + 1)).head? = l.head? := by
  cases l <;> simp

lemma sanitize_head_false {s : String} {m : ℕ} {a : Char}
    (h : (sanitize_filename s m).data.head? = some a) : pySpace a = false := by
  have hd : (sanitize_filename s m).data =
      (pyReplaceNlCr (pyStrip s.data)).take m := rfl
  rw [hd] at h
  cases m with
  | zero => simp at h
  | succ m' =>
    rw [head?_take_succ, pyReplaceNlCr, List.head?_map] at h
    obtain ⟨a', ha', hfa⟩ := Option.map_eq_some'.1 h
    cases hx : pyStrip s.data with
    | nil => rw [hx] at ha'; simp at ha'
    | cons b t =>
      rw [hx] at ha'
      simp at ha'
      subst ha'
      rw [← hfa]
      exact pyReplaceNlCr_not_space (pyStrip_head_false hx)

/-! ## Helper lemmas: the date prefix -/

lemma digitChar_mod_ne_sep (n : ℕ) :
    Nat.digitChar (n % 10) ≠ '/' ∧ Nat.digitChar (n % 10) ≠ '\\' := by
  have hlt : n % 10 < 10 := Nat.mod_lt _ (by norm_num)
  set k := n % 10 with hk
  clear_value k
  interval_cases k <;> exact ⟨by decide, by decide⟩

lemma dateStr_some_length (dt : PyDate) : (dateStrOf (some dt)).length = 11 := rfl

lemma mem_dateStr_ne_sep {d : Option PyDate} {c : Char}
    (h : c ∈ (dateStrOf d).data) : c ≠ '/' ∧ c ≠ '\\' := by
  cases d with
  | none => simp [dateStrOf, String.data] at h
  | some dt =>
    simp only [dateStrOf, pad4, pad2, List.cons_append, List.nil_append,
      List.mem_cons, List.mem_append, List.mem_singleton, List.mem_nil_iff,
      or_false] at h
    rcases h with h | h | h | h | h | h | h | h | h | h | h <;>
      first
        | (subst h; exact digitChar_mod_ne_sep _)
        | (subst h; exact ⟨by decide, by decide⟩)

/-! ## Helper lemmas: the size cap -/

lemma calcCore_eq (l s : ℕ) : calcCore l s =
    if l > 2000 then
      (if 2000 * s / l > 768 then (768 * 2000 / s, 768) else (2000, 2000 * s / l))
    else
      (if s > 768 then (768 * l / s, 768) else (l, s)) := by
  rw [calcCore]
  by_cases h1 : l > 2000 <;> simp [h1]

lemma second_clamp_768_le {l s : ℕ} (h1 : l > 2000) (h2 : 2000 * s / l > 768) :
    768 ≤ s := by
  have hmul : 769 * l ≤ 2000 * s :=
    (Nat.le_div_iff_mul_le (by omega)).1 h2
  nlinarith

lemma calcCore_within (l s : ℕ) :
    (calcCore l s).1 ≤ 2000 ∧ (calcCore l s).2 ≤ 768 := by
  rw [calcCore_eq]
  split_ifs with h1 h2 h3
  · refine ⟨?_, le_refl 768⟩
    have hs : 768 ≤ s := second_clamp_768_le h1 h2
    calc 768 * 2000 / s ≤ 768 * 2000 / 768 :=
          Nat.div_le_div_left hs (by norm_num)
      _ = 2000 := by norm_num
  · exact ⟨le_refl 2000, by omega⟩
  · refine ⟨?_, le_refl 768⟩
    calc 768 * l / s ≤ 768 * l / 768 :=
          Nat.div_le_div_left (by omega) (by norm_num)
      _ = l := Nat.mul_div_cancel_left l (by norm_num)
      _ ≤ 2000 := by omega
  · exact ⟨by omega, by omega⟩

lemma calcCore_shrink (l s : ℕ) :
    (calcCore l s).1 ≤ l ∧ (calcCore l s).2 ≤ s := by
  rw [calcCore_eq]
  split_ifs with h1 h2 h3
  · have hs : 768 ≤ s := second_clamp_768_le h1 h2
    constructor
    · calc 768 * 2000 / s ≤ 768 * 2000 / 768 :=
            Nat.div_le_div_left hs (by norm_num)
        _ = 2000 := by norm_num
        _ ≤ l := by omega
    · omega
  · constructor
    · omega
    · calc 2000 * s / l ≤ 2000 * s / 2000 :=
            Nat.div_le_div_left (by omega) (by norm_num)
        _ = s := Nat.mul_div_cancel_left s (by norm_num)
  · constructor
    · calc 768 * l / s ≤ 768 * l / 768 :=
            Nat.div_le_div_left (by omega) (by norm_num)
        _ = l := Nat.mul_div_cancel_left l (by norm_num)
    · omega
  · exact ⟨le_refl l, le_refl s⟩

lemma calcCore_id {l s : ℕ} (hl : l ≤ 2000) (hs : s ≤ 768) :
    calcCore l s = (l, s) := by
  rw [calcCore_eq]
  rw [if_neg (by omega : ¬ l > 2000), if_neg (by omega : ¬ s > 768)]

/-! ## Helper lemmas: the regex scan -/

lemma searchDate_leftmost :
    ∀ (l : List Char) (m : List Char), regexSearchDate l = some m →
      ∃ i, i ≤ l.length ∧ matchDateAlts (l.drop i) = some m ∧
        ∀ j, j < i → matchDateAlts (l.drop j) = none := by
  intro l
  induction l with
  | nil => intro m h; simp [regexSearchDate] at h
  | cons a t ih =>
    intro m h
    cases hm : matchDateAlts (a :: t) with
    | some m' =>
      rw [regexSearchDate, hm] at h
      cases h
      exact ⟨0, by simp, by simpa using hm, fun j hj => by omega⟩
    | none =>
      rw [regexSearchDate, hm] at h
      obtain ⟨i, hi, hmi, hall⟩ := ih m h
      refine ⟨i + 1, by simpa using Nat.succ_le_succ hi, ?_, ?_⟩
      · simpa [List.drop_succ_cons] using hmi
      · intro j hj
        cases j with
        | zero => simpa using hm
        | succ k => simpa [List.drop_succ_cons] using hall k (by omega)

lemma searchDate_none :
    ∀ l : List Char, (∀ i, matchDateAlts (l.drop i) = none) →
      regexSearchDate l = none := by
  intro l
  induction l with
  | nil => intro _; rfl
  | cons a t ih =>
    intro h
    have h0 : matchDateAlts (a :: t) = none := by simpa using h 0
    rw [regexSearchDate, h0]
    exact ih fun i => by simpa [List.drop_succ_cons] using h (i + 1)

lemma matchShape_digit_none {ps : List (Char → Bool)} {l : List Char}
    (h : ∀ c ∈ l, c.isDigit = false) :
    matchShape (Char.isDigit :: ps) l = none := by
  cases l with
  | nil => simp [matchShape]
  | cons a t =>
    have ha : a.isDigit = false := h a (by simp)
    simp [matchShape, ha]

lemma matchDateAlts_no_digit {l : List Char}
    (h : ∀ c ∈ l, c.isDigit = false) : matchDateAlts l = none := by
  rw [matchDateAlts, dateAlt1, dateAlt2, dateAlt3, dateAlt4]
  rw [matchShape_digit_none h, matchShape_digit_none h, matchShape_digit_none h]

/-! ## Helper lemmas: stem composition -/

lemma dateStr_length_cases (d : Option PyDate) :
    (dateStrOf d).length = 0 ∨ (dateStrOf d).length = 11 := by
  cases d with
  | none => left; rfl
  | some dt => right; rfl

lemma finalStem_length_le (d : Option PyDate) (sugg : String) :
    (finalStem d sugg).length ≤ FILENAME_MAX_CHARACTERS := by
  rw [finalStem, String.length_append]
  have hb := sanitize_length_le sugg (FILENAME_MAX_CHARACTERS - (dateStrOf d).length)
  rw [FILENAME_MAX_CHARACTERS] at hb ⊢
  rcases dateStr_length_cases d with h | h <;> rw [h] at hb ⊢ <;> omega

lemma finalStem_no_sep (d : Option PyDate) (draft : String) :
    ∀ c ∈ (finalStem d (postProcess draft)).data, c ≠ '/' ∧ c ≠ '\\' := by
  intro c hc
  rw [finalStem, String.data_append] at hc
  rcases List.mem_append.1 hc with h | h
  · exact mem_dateStr_ne_sep h
  · rcases mem_sanitize h with h1 | ⟨h2, _, _⟩
    · subst h1; exact ⟨by decide, by decide⟩
    · have hw := mem_postProcess h2
      constructor
      · intro he; subst he; exact absurd hw.1 (by decide)
      · intro he; subst he; exact absurd hw.1 (by decide)

/-! ## Claims -/

/-- C1: for every processed image (any filename stem, any backend draft), the
constructed stem is at most `FILENAME_MAX_CHARACTERS` characters long, contains
no path separator (`/` or `\`), the original extension is appended unchanged
(it is a suffix of the new file name); when a date was extracted the stem is
the `YYYY-MM-DD-` prefix followed by the suggestion sanitized with the
max-length budget reduced by the prefix length (11), else it is just the
suggestion sanitized with the full budget. -/
theorem c1_filename_invariants (stem draft : String) :
    (finalStem (_extract_date_from_filename stem) (postProcess draft)).length ≤
      FILENAME_MAX_CHARACTERS ∧
    (∀ c ∈ (finalStem (_extract_date_from_filename stem) (postProcess draft)).data,
      c ≠ '/' ∧ c ≠ '\\') ∧
    (∀ suffix : String, suffix.data <:+
      (finalName (_extract_date_from_filename stem) (postProcess draft) suffix).data) ∧
    (_extract_date_from_filename stem = none →
      finalStem (_extract_date_from_filename stem) (postProcess draft) =
        sanitize_filename (postProcess draft) FILENAME_MAX_CHARACTERS) ∧
    (∀ dt, _extract_date_from_filename stem = some dt →
      (dateStrOf (some dt)).length = 11 ∧
      finalStem (_extract_date_from_filename stem) (postProcess draft) =
        dateStrOf (some dt) ++
          sanitize_filename (postProcess draft) (FILENAME_MAX_CHARACTERS - 11)) := by
  refine ⟨finalStem_length_le _ _, finalStem_no_sep _ _, ?_, ?_, ?_⟩
  · intro suffix
    rw [finalName, String.data_append]
    exact List.suffix_append _ _
  · intro hnone
    rw [hnone, finalStem]
    simp [dateStrOf, String.empty_append]
  · intro dt hdt
    rw [hdt]
    exact ⟨rfl, by rw [finalStem, dateStr_some_length]⟩

/-- Witness for C1: both branches at concrete inputs — a stem without a date
and the macOS screenshot stem with its date. -/
theorem c1_filename_invariants_witness :
    (_extract_date_from_filename "x" = none ∧
      finalStem (_extract_date_from_filename "x") (postProcess "abc") =
        sanitize_filename (postProcess "abc") FILENAME_MAX_CHARACTERS) ∧
    (_extract_date_from_filename "Screenshot 2024-05-24 at 23.53.04" =
        some ⟨2024, 5, 24⟩ ∧
      finalStem (_extract_date_from_filename "Screenshot 2024-05-24 at 23.53.04")
          (postProcess "q") =
        dateStrOf (some ⟨2024, 5, 24⟩) ++
          sanitize_filename (postProcess "q") (FILENAME_MAX_CHARACTERS - 11)) :=
  ⟨⟨rfl, (c1_filename_invariants "x" "abc").2.2.2.1 rfl⟩,
    ⟨rfl, ((c1_filename_invariants "Screenshot 2024-05-24 at 23.53.04" "q").2.2.2.2
      ⟨2024, 5, 24⟩ rfl).2⟩⟩

/-- C2 (amended): for every input size `(w, h)` the size computation returns a
pair whose shorter dimension is at most 768 and whose longer dimension is at
most 2000, it only ever shrinks each dimension (never enlarges), and it
returns the input unchanged whenever the longer dimension is already ≤ 2000
and the shorter ≤ 768.  (The claim's "preserving aspect ratio" conjunct is
dropped: each clamp scales by a truncated ratio and the second clamp divides
by the ORIGINAL short side while rescaling the already-clamped long side, so
the ratio is not preserved — see the counterexample.) -/
theorem c2_resizer_bounds (w h : ℕ) :
    min (_calc_max_image_size (w, h)).1 (_calc_max_image_size (w, h)).2 ≤ 768 ∧
    max (_calc_max_image_size (w, h)).1 (_calc_max_image_size (w, h)).2 ≤ 2000 ∧
    (_calc_max_image_size (w, h)).1 ≤ w ∧
    (_calc_max_image_size (w, h)).2 ≤ h ∧
    (max w h ≤ 2000 → min w h ≤ 768 → _calc_max_image_size (w, h) = (w, h)) := by
  rw [_calc_max_image_size]
  by_cases hc : w > h
  · simp only [if_pos hc]
    have hwi := calcCore_within w h
    have hsh := calcCore_shrink w h
    refine ⟨le_trans (min_le_right _ _) hwi.2,
      max_le hwi.1 (le_trans hwi.2 (by norm_num)), hsh.1, hsh.2, ?_⟩
    intro h1 h2
    have hw2000 : w ≤ 2000 := le_trans (le_max_left _ _) h1
    have hh768 : h ≤ 768 := by
      rw [min_eq_right (le_of_lt hc)] at h2
      exact h2
    exact calcCore_id hw2000 hh768
  · simp only [if_neg hc]
    have hwi := calcCore_within h w
    have hsh := calcCore_shrink h w
    refine ⟨le_trans (min_le_left _ _) hwi.2,
      max_le (le_trans hwi.2 (by norm_num)) hwi.1, hsh.2, hsh.1, ?_⟩
    intro h1 h2
    have hwh : w ≤ h := le_of_not_lt hc
    have hh2000 : h ≤ 2000 := le_trans (le_max_right _ _) h1
    have hw768 : w ≤ 768 := by
      rw [min_eq_left hwh] at h2
      exact h2
    rw [calcCore_id hh2000 hw768]

/-- Witness for C2: a size within both limits is returned unchanged. -/
theorem c2_resizer_bounds_witness :
    max 512 384 ≤ 2000 ∧ min 512 384 ≤ 768 ∧
    _calc_max_image_size (512, 384) = (512, 384) :=
  ⟨by norm_num, by norm_num,
    (c2_resizer_bounds 512 384).2.2.2.2 (by norm_num) (by norm_num)⟩

/-- Counterexample for C2 as stated: at input (2100, 2000) both clamps fire and
the result is (768, 768), which does not preserve the 2100:2000 aspect ratio
(cross-multiplication 768·2000 ≠ 2100·768). -/
theorem c2_counterexample :
    _calc_max_image_size (2100, 2000) = (768, 768) ∧
    (_calc_max_image_size (2100, 2000)).1 * 2000 ≠
      2100 * (_calc_max_image_size (2100, 2000)).2 := by
  have h : _calc_max_image_size (2100, 2000) = (768, 768) := by rfl
  refine ⟨h, ?_⟩
  rw [h]
  norm_num

/-- C3 counterexample: with the backend draft `"Login Form!! "` the
post-processing turns the trailing space into an underscore BEFORE the
sanitizer could trim it, so the sanitized suggestion is `"Login_Form_"`
(not `"Login_Form"`), and the final stem with date 2024-05-24 is
`"2024-05-24-Login_Form_"` (not `"2024-05-24-Login_Form"`). -/
theorem c3_counterexample :
    suggest_image_name (some "Login Form!! ") = some "Login_Form_" ∧
    ("Login_Form_" : String) ≠ "Login_Form" ∧
    finalStem (some ⟨2024, 5, 24⟩) "Login_Form_" = "2024-05-24-Login_Form_" ∧
    ("2024-05-24-Login_Form_" : String) ≠ "2024-05-24-Login_Form" :=
  ⟨rfl, by decide, rfl, by decide⟩

/-- C3 (amended): for input suggestion `"Login Form!! "` the post-processed
and sanitized suggestion is `"Login_Form_"` (punctuation stripped, each space
— including the trailing one — mapped to an underscore), and with the date
2024-05-24 extracted from the macOS screenshot stem the final stem is
`"2024-05-24-Login_Form_"`; end-to-end the cli loop proposes exactly that
rename. -/
theorem c3_login_form_pipeline :
    suggest_image_name (some "Login Form!! ") = some "Login_Form_" ∧
    sanitize_filename "Login_Form_" (FILENAME_MAX_CHARACTERS - 11) = "Login_Form_" ∧
    finalStem (_extract_date_from_filename "Screenshot 2024-05-24 at 23.53.04")
      "Login_Form_" = "2024-05-24-Login_Form_" ∧
    cliRenames true
      [⟨"Screenshot 2024-05-24 at 23.53.04", ".png", some "Login Form!! "⟩] =
      [("Screenshot 2024-05-24 at 23.53.04.png", "2024-05-24-Login_Form_.png")] :=
  ⟨rfl, rfl, rfl, rfl⟩

/-- C4: for every raw suggestion string and every maximum length, the output
of `sanitize_filename` has at most that many characters and contains neither a
newline nor a carriage return. -/
theorem c4_sanitize_bounds (s : String) (m : ℕ) :
    (sanitize_filename s m).length ≤ m ∧
    '\n' ∉ (sanitize_filename s m).data ∧
    '\r' ∉ (sanitize_filename s m).data :=
  ⟨sanitize_length_le s m, (sanitize_no_nl_cr s m).1, (sanitize_no_nl_cr s m).2⟩

/-- Witness for C4 at a concrete input containing whitespace and a newline. -/
theorem c4_sanitize_bounds_witness :
    (sanitize_filename " a\nb " 3).length ≤ 3 ∧
    '\n' ∉ (sanitize_filename " a\nb " 3).data ∧
    '\r' ∉ (sanitize_filename " a\nb " 3).data :=
  c4_sanitize_bounds " a\nb " 3

/-- C5 counterexample: sanitizing is NOT idempotent in general — truncation
can expose a trailing space that only the second pass strips:
`sanitize("ab c", 3) = "ab "` but `sanitize("ab ", 3) = "ab"`. -/
theorem c5_counterexample :
    sanitize_filename "ab c" 3 = "ab " ∧
    sanitize_filename (sanitize_filename "ab c" 3) 3 = "ab" ∧
    sanitize_filename (sanitize_filename "ab c" 3) 3 ≠ sanitize_filename "ab c" 3 :=
  ⟨rfl, rfl, by decide⟩

/-- C5 (amended): applying `sanitize_filename` twice agrees with applying it
once whenever the once-sanitized string does not end in a whitespace character
(the only way truncation can re-introduce strippable material). -/
theorem c5_sanitize_idem (s : String) (m : ℕ)
    (h : ∀ a, (sanitize_filename s m).data.getLast? = some a → pySpace a = false) :
    sanitize_filename (sanitize_filename s m) m = sanitize_filename s m := by
  have hstrip : pyStrip (sanitize_filename s m).data = (sanitize_filename s m).data :=
    pyStrip_eq_self (fun a ha => sanitize_head_false ha) h
  have hnl := sanitize_no_nl_cr s m
  have hrep : pyReplaceNlCr (sanitize_filename s m).data = (sanitize_filename s m).data := by
    refine map_eq_self_of_forall fun c hc => ?_
    have h1 : ¬ c = '\n' := fun he => hnl.1 (he ▸ hc)
    have h2 : ¬ c = '\r' := fun he => hnl.2 (he ▸ hc)
    simp [h1, h2]
  have hlen : (sanitize_filename s m).data.length ≤ m := sanitize_length_le s m
  show sanitize_filename (sanitize_filename s m) m = sanitize_filename s m
  rw [sanitize_filename, hstrip, hrep, List.take_of_length_le hlen]

/-- Witness for C5 at a concrete input whose sanitized form has no trailing
whitespace. -/
theorem c5_sanitize_idem_witness :
    (∀ a, (sanitize_filename " ab c " 4).data.getLast? = some a → pySpace a = false) ∧
    sanitize_filename (sanitize_filename " ab c " 4) 4 = sanitize_filename " ab c " 4 :=
  ⟨by decide, c5_sanitize_idem " ab c " 4 (by decide)⟩

/-- C6 counterexample: the post-processing does NOT collapse whitespace runs
into single underscores — two adjacent spaces become two underscores. -/
theorem c6_counterexample :
    suggest_image_name (some "a  b") = some "a__b" ∧
    some ("a__b" : String) ≠ some ("a_b" : String) :=
  ⟨rfl, by decide⟩

/-- C6 (amended): the Naming Service post-process keeps exactly the word and
whitespace characters of the backend response, then replaces each space
character individually by an underscore (whitespace runs are not collapsed and
non-space whitespace such as a tab survives unchanged); the result is absent
exactly when the backend produced no content. -/
theorem c6_postprocess :
    suggest_image_name none = none ∧
    (∀ s : String, suggest_image_name (some s) = some (postProcess s)) ∧
    (∀ s : String, ∀ c ∈ (postProcess s).data,
      (pyWord c || pySpace c) = true ∧ c ≠ ' ') ∧
    suggest_image_name (some "a  b") = some "a__b" ∧
    suggest_image_name (some "a\tb") = some "a\tb" :=
  ⟨rfl, fun _ => rfl, fun _ _ hc => mem_postProcess hc, rfl, rfl⟩

/-- Witness for C6: the membership conjunct at a concrete character of a
concrete post-processed string. -/
theorem c6_postprocess_witness :
    ('_' ∈ (postProcess "a b!").data) ∧
    ((pyWord '_' || pySpace '_') = true ∧ '_' ≠ ' ') :=
  ⟨by decide, c6_postprocess.2.2.1 "a b!" '_' (by decide)⟩

/-- C7: the Date Extractor uses only the first (leftmost) substring matching
one of the regex alternatives — whenever the scan returns a match, some
position `i` matches and every earlier position does not, and the extracted
date is exactly the parse of that match; when no position matches, or the
stem has no digit at all (so no alternative can match anywhere), the result
is absent; and the macOS stem `"Screenshot 2024-05-24 at 23.53.04"` yields
the date 2024-05-24. -/
theorem c7_date_extraction :
    (∀ (stem : String) (m : List Char), regexSearchDate stem.data = some m →
      _extract_date_from_filename stem = dateparse m ∧
      ∃ i, i ≤ stem.data.length ∧ matchDateAlts (stem.data.drop i) = some m ∧
        ∀ j, j < i → matchDateAlts (stem.data.drop j) = none) ∧
    (∀ stem : String, regexSearchDate stem.data = none →
      _extract_date_from_filename stem = none) ∧
    (∀ stem : String, (∀ c ∈ stem.data, c.isDigit = false) →
      _extract_date_from_filename stem = none) ∧
    _extract_date_from_filename "Screenshot 2024-05-24 at 23.53.04" =
      some ⟨2024, 5, 24⟩ := by
  refine ⟨?_, ?_, ?_, rfl⟩
  · intro stem m h
    exact ⟨by rw [_extract_date_from_filename, h]; rfl, searchDate_leftmost _ m h⟩
  · intro stem h
    rw [_extract_date_from_filename, h]
    rfl
  · intro stem h
    have hs : regexSearchDate stem.data = none :=
      searchDate_none _ fun i =>
        matchDateAlts_no_digit fun c hc => h c (List.drop_subset i stem.data hc)
    rw [_extract_date_from_filename, hs]
    rfl

/-- Witness for C7: a digit-free stem yields no date; the screenshot stem
yields its date. -/
theorem c7_date_extraction_witness :
    _extract_date_from_filename "no digits here" = none ∧
    _extract_date_from_filename "Screenshot 2024-05-24 at 23.53.04" =
      some ⟨2024, 5, 24⟩ :=
  ⟨c7_date_extraction.2.2.1 "no digits here" (by decide), c7_date_extraction.2.2.2⟩

/-- C8 counterexample: a file whose backend response is the empty string gets
a NON-absent suggestion (`some ""`), yet is not renamed in rename mode — so
"exactly the files with a non-absent suggestion are renamed" fails as stated. -/
theorem c8_counterexample :
    cliRenames true [⟨"a", ".png", some ""⟩] = [] ∧
    suggest_image_name (some "") ≠ none :=
  ⟨rfl, by decide⟩

/-- C8 (amended): dry-run mode (the default) performs no rename whatsoever;
rename mode renames exactly the files whose post-processed suggestion is
present AND non-empty (Python truthiness); an image whose backend response is
empty is skipped with no rename attempted, in both modes. -/
theorem c8_rename_exactly :
    (∀ shots : List Shot, cliRenames false shots = []) ∧
    (∀ shots : List Shot, (cliRenames true shots).map Prod.fst =
      (shots.filter fun sh => truthySuggestion (suggest_image_name sh.draft)).map
        fun sh => sh.stem ++ sh.suffix) ∧
    (∀ (do_rename : Bool) (stem suffix : String) (rest : List Shot),
      cliRenames do_rename (⟨stem, suffix, some ""⟩ :: rest) =
        cliRenames do_rename rest) := by
  refine ⟨?_, ?_, ?_⟩
  · intro shots
    induction shots with
    | nil => rfl
    | cons sh rest ih =>
      cases hs : suggest_image_name sh.draft with
      | none => simp [cliRenames, hs, ih]
      | some s =>
        by_cases hse : s = "" <;> simp [cliRenames, hs, hse, ih]
  · intro shots
    induction shots with
    | nil => rfl
    | cons sh rest ih =>
      cases hs : suggest_image_name sh.draft with
      | none => simp [cliRenames, hs, List.filter_cons, truthySuggestion, ih]
      | some s =>
        by_cases hse : s = "" <;>
          simp [cliRenames, hs, hse, List.filter_cons, truthySuggestion, ih]
  · intro do_rename stem suffix rest
    rfl

/-- Witness for C8 (amended): concrete runs of the loop in both modes. -/
theorem c8_rename_exactly_witness :
    cliRenames false [⟨"a", ".png", some "x!"⟩] = [] ∧
    (cliRenames true [⟨"a", ".png", some "x!"⟩, ⟨"b", ".png", none⟩]).map Prod.fst =
      (([⟨"a", ".png", some "x!"⟩, ⟨"b", ".png", none⟩] : List Shot).filter
        fun sh => truthySuggestion (suggest_image_name sh.draft)).map
          fun sh => sh.stem ++ sh.suffix :=
  ⟨c8_rename_exactly.1 [⟨"a", ".png", some "x!"⟩],
    c8_rename_exactly.2.1 [⟨"a", ".png", some "x!"⟩, ⟨"b", ".png", none⟩]⟩

/-- C9: the code computes the capped size but discards the result of
`pillow_image.resize(new_size)` (the return value is never assigned), so for
an image of size 4000×1000 — where the cap (2000, 500) differs from the
original — the payload that is WEBP-encoded and base64-submitted still has
the original 4000×1000 dimensions, contradicting both the claim and the
code's own progress message. -/
theorem c9_payload_not_resized :
    _calc_max_image_size (4000, 1000) = (2000, 500) ∧
    _encode_image_payload_size (4000, 1000) = (4000, 1000) ∧
    _encode_image_payload_size (4000, 1000) ≠ _calc_max_image_size (4000, 1000) := by
  refine ⟨by rfl, rfl, ?_⟩
  intro h
  rw [_encode_image_payload_size] at h
  have h2 : _calc_max_image_size (4000, 1000) = (2000, 500) := by rfl
  rw [h2] at h
  simp at h

/-- C10 counterexample: with the flag absent and `AISN_OPENAI_MODEL` set to
the empty string (set, but not unset), the local backend is still selected —
the claim's "local only when the variable is unset" is too strong. -/
theorem c10_counterexample :
    really_use_openai false (some "") = false ∧
    some "" ≠ (none : Option String) :=
  ⟨rfl, by decide⟩

/-- C10 (amended): a non-empty `AISN_OPENAI_MODEL` selects the OpenAI backend
even without `--use-openai`; the local backend is selected exactly when the
flag is absent and the variable is unset or set to the empty string. -/
theorem c10_backend_selection (flag : Bool) (env : Option String) :
    (∀ s, env = some s → s ≠ "" → really_use_openai flag env = true) ∧
    (really_use_openai flag env = false ↔
      flag = false ∧ (env = none ∨ env = some "")) := by
  constructor
  · intro s hs hne
    subst hs
    rw [really_use_openai]
    simp [hne]
  · cases env with
    | none => simp [really_use_openai]
    | some s =>
      by_cases hse : s = ""
      · subst hse
        simp [really_use_openai]
      · simp [really_use_openai, hse]

/-- Witness for C10: concrete backend selections. -/
theorem c10_backend_selection_witness :
    really_use_openai false (some "gpt-4o") = true ∧
    (really_use_openai false (none : Option String) = false ↔
      (false = false ∧
        ((none : Option String) = none ∨ (none : Option String) = some ""))) :=
  ⟨(c10_backend_selection false (some "gpt-4o")).1 "gpt-4o" rfl (by decide),
    (c10_backend_selection false none).2⟩
